import Mathlib

/-!
# Verification of the Mystery Mosaic generator (`App.py`)

A shallow embedding of the computational core of the Streamlit mystery-mosaic
generator, together with theorems checking the natural-language specification
against it.

Modelling conventions:
* Python `int` is modelled as `ℤ` (or `ℕ` where the value is provably
  non-negative); Python floor division `//` is `Int.fdiv`.
* Python `float` arithmetic is modelled exactly over `ℚ`; `round` is Python's
  banker's rounding (`roundHalfEven`), and `int(_)` on a non-negative value is
  the floor.
* A raised exception is `Except.error` carrying the exception message.
* Images are total pixel functions together with their dimensions; the PIL
  resampling filter (`Image.LANCZOS`) is an external library routine, so it is
  a parameter of the embedding and theorems that depend on it assume only its
  documented properties.
-/

-- ---------- Definitions (shallow embedding of App.py) ----------

/-- An 8-bit RGB triple (each channel a natural number, 0..255 in practice). -/
abbrev RGB := ℕ × ℕ × ℕ

/-- Page dimensions: 8.5 x 11 inches at 300 DPI, from `PAGE_WIDTH, PAGE_HEIGHT = 2550, 3300`. -/
def PAGE_WIDTH : ℕ := 2550

/-- Page height in pixels. -/
def PAGE_HEIGHT : ℕ := 3300

/-- The fixed palette, in dict insertion order (which is Python's iteration
order).  Keys `"1"`-`"9"` and `"A"`-`"S"`. -/
def PALETTE : List (String × RGB) :=
  [("1", (0, 0, 0)), ("2", (64, 64, 64)), ("3", (192, 192, 192)),
   ("4", (101, 67, 33)), ("5", (139, 69, 19)), ("6", (210, 180, 140)),
   ("7", (222, 184, 135)), ("8", (255, 253, 208)), ("9", (139, 0, 0)),
   ("A", (255, 0, 0)), ("B", (255, 69, 0)), ("C", (255, 140, 0)),
   ("D", (255, 255, 0)), ("E", (154, 205, 50)), ("F", (128, 128, 0)),
   ("G", (0, 128, 0)), ("H", (0, 255, 128)), ("I", (0, 100, 0)),
   ("J", (0, 0, 139)), ("K", (0, 0, 255)), ("L", (135, 206, 235)),
   ("M", (173, 216, 230)), ("N", (128, 0, 128)), ("O", (238, 130, 238)),
   ("P", (255, 0, 255)), ("Q", (230, 230, 250)), ("R", (231, 84, 128)),
   ("S", (255, 192, 203))]

/-- Constant `OUTLINE_WIDTH = 2`. -/
def OUTLINE_WIDTH : ℕ := 2

/-- Constant `NUMBER_FILL = (0, 0, 0)`. -/
def NUMBER_FILL : RGB := (0, 0, 0)

/-- Constant `NUMBER_FONT_SIZE_FACTOR = 0.6` (exact as a rational). -/
def NUMBER_FONT_SIZE_FACTOR : ℚ := 3 / 5

/-- Squared Euclidean distance in RGB space:
`dr = v[0] - r; dg = v[1] - g; db = v[2] - b; dist = dr*dr + dg*dg + db*db`. -/
def sqDist (v : RGB) (c : RGB) : ℤ :=
  let dr : ℤ := (v.1 : ℤ) - (c.1 : ℤ)
  let dg : ℤ := (v.2.1 : ℤ) - (c.2.1 : ℤ)
  let db : ℤ := (v.2.2 : ℤ) - (c.2.2 : ℤ)
  dr * dr + dg * dg + db * db

/-- One iteration of the loop body of `nearest_palette_label`: the running
best `(best_label, best_dist)` (initially `None`) is replaced exactly when
`best_dist is None or dist < best_dist`. -/
def nearStep (c : RGB) (best : Option (String × ℤ)) (kv : String × RGB) :
    Option (String × ℤ) :=
  let dist := sqDist kv.2 c
  match best with
  | none => some (kv.1, dist)
  | some (bk, bd) => if dist < bd then some (kv.1, dist) else some (bk, bd)

/-- Function `nearest_palette_label(rgb)`: fold the loop body over the palette in
iteration order and return the best label (`none` only for an empty palette). -/
def nearest_palette_label (c : RGB) : Option String :=
  (PALETTE.foldl (nearStep c) none).map Prod.fst

/-- Function `compute_cell_grid(grid_cols)`: integer cell size and row count for the
fixed page, with the three `ValueError` guards of the source. -/
def compute_cell_grid (grid_cols : ℤ) : Except String (ℤ × ℤ × ℤ) :=
  if grid_cols < 1 then .error "grid_cols must be >= 1"
  else
    let cell_w := Int.fdiv (PAGE_WIDTH : ℤ) grid_cols
    if cell_w < 1 then .error "grid_cols too large for page width"
    else
      let grid_rows := Int.fdiv (PAGE_HEIGHT : ℤ) cell_w
      if grid_rows < 1 then .error "computed grid rows < 1; reduce grid_cols"
      else .ok (cell_w, grid_cols, grid_rows)

/-- An in-memory RGB raster image: dimensions plus a total pixel function
(the function is only meaningful on `x < w`, `y < h`). -/
structure Img where
  w : ℕ
  h : ℕ
  px : ℕ → ℕ → RGB

/-- A resampling filter: given the source image and the target dimensions,
produces each target pixel.  `Image.resize(..., resample=Image.LANCZOS)`
delegates to such a filter inside PIL; the filter is kept as a parameter of
the embedding, and theorems assume only its documented properties. -/
def Sampler := Img → ℕ → ℕ → ℕ → ℕ → RGB

/-- Method `im.resize((nw, nh), resample=...)`: the result has exactly the requested
dimensions and pixels given by the filter. -/
def Img.resize (samp : Sampler) (im : Img) (nw nh : ℕ) : Img :=
  ⟨nw, nh, fun x y => samp im nw nh x y⟩

/-- Method `im.crop((l, t, r, b))` (PIL): the result has size `(r - l, b - t)`;
pixels inside the source are copied, pixels of the box that fall outside the
source are black `(0, 0, 0)` padding. -/
def Img.crop (im : Img) (l t r b : ℤ) : Img :=
  ⟨(r - l).toNat, (b - t).toNat, fun x y =>
    if 0 ≤ l + x ∧ l + x < im.w ∧ 0 ≤ t + y ∧ t + y < im.h then
      im.px (l + x).toNat (t + y).toNat
    else (0, 0, 0)⟩

/-- Python's `round` on a float: round half to even (banker's rounding),
modelled exactly on `ℚ`. -/
def roundHalfEven (q : ℚ) : ℤ :=
  if q - ⌊q⌋ < 1 / 2 then ⌊q⌋
  else if 1 / 2 < q - ⌊q⌋ then ⌊q⌋ + 1
  else if Even ⌊q⌋ then ⌊q⌋ else ⌊q⌋ + 1

/-- Cover-fit scale `max(PAGE_WIDTH / src_w, PAGE_HEIGHT / src_h)` (float division,
exact over `ℚ`). -/
def coverScale (srcW srcH : ℕ) : ℚ :=
  max ((PAGE_WIDTH : ℚ) / srcW) ((PAGE_HEIGHT : ℚ) / srcH)

/-- Scaled size `new_w = max(1, int(round(src_w * scale)))`, and likewise `new_h`. -/
def coverSize (srcW srcH : ℕ) : ℕ × ℕ :=
  (max 1 (roundHalfEven (srcW * coverScale srcW srcH)).toNat,
   max 1 (roundHalfEven (srcH * coverScale srcW srcH)).toNat)

/-- Function `resize_and_crop_to_page(im)`: resize to cover the page, then center-crop
to exactly `(PAGE_WIDTH, PAGE_HEIGHT)`. -/
def resize_and_crop_to_page (samp : Sampler) (im : Img) : Img :=
  let nwh := coverSize im.w im.h
  let im2 := im.resize samp nwh.1 nwh.2
  let left : ℤ := Int.fdiv ((nwh.1 : ℤ) - (PAGE_WIDTH : ℤ)) 2
  let top : ℤ := Int.fdiv ((nwh.2 : ℤ) - (PAGE_HEIGHT : ℤ)) 2
  im2.crop left top (left + (PAGE_WIDTH : ℤ)) (top + (PAGE_HEIGHT : ℤ))

/-- The pixels of the numpy slice `npimg[top:top+h, left:left+w]`: slice
bounds clamp to the array bounds, row-major order. -/
def regionPixels (im : Img) (left top w h : ℕ) : List RGB :=
  (List.range' top (min (top + h) im.h - top)).flatMap fun y =>
    (List.range' left (min (left + w) im.w - left)).map fun x => im.px x y

/-- Function `average_color_of_region(npimg, left, top, w, h)`: the empty slice yields
the black fallback; otherwise the per-channel arithmetic mean, truncated to an
integer (`int(_)` on a non-negative float is the floor). -/
def average_color_of_region (im : Img) (left top w h : ℕ) : RGB :=
  let sub := regionPixels im left top w h
  if sub = [] then (0, 0, 0)
  else
    ((⌊((sub.map fun p => (p.1 : ℚ)).sum / (sub.length : ℚ))⌋).toNat,
     (⌊((sub.map fun p => (p.2.1 : ℚ)).sum / (sub.length : ℚ))⌋).toNat,
     (⌊((sub.map fun p => (p.2.2 : ℚ)).sum / (sub.length : ℚ))⌋).toNat)

/-- The state of the system environment as font resolution sees it: which
candidate paths exist, which of them `ImageFont.truetype` can load without
raising, and whether loading by the generic name succeeds. -/
structure FontEnv where
  pathExists : String → Bool
  loadOk : String → Bool
  genericOk : Bool

/-- The ordered candidate font paths of the source. -/
def possible_fonts : List String :=
  ["/usr/share/fonts/truetype/dejavu/DejaVuSans-Bold.ttf",
   "/usr/share/fonts/truetype/liberation/LiberationSans-Bold.ttf",
   "/Library/Fonts/Arial.ttf",
   "C:\\Windows\\Fonts\\arial.ttf"]

/-- A resolved font: a truetype font at a path and size, or the built-in
default bitmap font (`ImageFont.load_default()`). -/
inductive Font where
  | truetype (path : String) (size : ℕ)
  | builtin
  deriving DecidableEq

/-- The font-determination block of `generate_mosaic_pages`: try each
candidate path in order (an existing path whose load raises leaves `font` as
`None` and the loop continues), then the generic name, then the built-in
default.  The result is always a definite font. -/
def resolve_font (env : FontEnv) (use_truetype_font : Bool) (font_size : ℕ) : Font :=
  let fromList : Option Font :=
    (possible_fonts.find? fun p => env.pathExists p && env.loadOk p).map
      fun p => Font.truetype p font_size
  let viaName : Option Font :=
    if env.genericOk then some (Font.truetype "DejaVuSans-Bold.ttf" font_size) else none
  let font : Option Font :=
    if use_truetype_font then
      match fromList with
      | some f => some f
      | none => viaName
    else none
  font.getD Font.builtin

/-- An abstract text-metrics oracle standing for `get_text_size` (whose value
depends on the Pillow version and the loaded font file). -/
def TextMeasure := Font → String → ℕ × ℕ

/-- Constructor call `Image.new("RGB", (w, h), c)`. -/
def Img.new (w h : ℕ) (c : RGB) : Img := ⟨w, h, fun _ _ => c⟩

/-- Call `draw.rectangle([x0, y0, x1, y1], fill=c)`: PIL fills the rectangle
inclusive of both corners. -/
def Img.drawRect (im : Img) (x0 y0 x1 y1 : ℕ) (c : RGB) : Img :=
  ⟨im.w, im.h, fun x y => if x0 ≤ x ∧ x ≤ x1 ∧ y0 ≤ y ∧ y ≤ y1 then c else im.px x y⟩

/-- Python `int(_)` on a float: truncation toward zero. -/
def intTrunc (q : ℚ) : ℤ := if 0 ≤ q then ⌊q⌋ else ⌈q⌉

/-- Dict indexing `PALETTE[label]`.  The label grid only ever holds palette
keys (`nearest_palette_label_isSome`), so the black default standing in for a
Python `KeyError` is unreachable. -/
def paletteColor (l : String) : RGB := (List.lookup l PALETTE).getD (0, 0, 0)

/-- The label of cell `(r, c)`: average color of the cell's pixel rectangle,
then the nearest palette key (`label_grid[r][c]` of the source).  The `getD`
default is unreachable since the palette is non-empty. -/
def labelAt (im : Img) (cell_w r c : ℕ) : String :=
  (nearest_palette_label
    (average_color_of_region im (c * cell_w) (r * cell_w) cell_w cell_w)).getD "1"

/-- The row-major list of `(r, c)` cell indices traversed by the nested
`for r in range(rows): for c in range(cols):` loops. -/
def cellList (cols rows : ℕ) : List (ℕ × ℕ) :=
  (List.range rows).flatMap fun r => (List.range cols).map fun c => (r, c)

/-- The label grid: `rows` rows of `cols` labels. -/
def labelGrid (im : Img) (cell_w cols rows : ℕ) : List (List String) :=
  (List.range rows).map fun r => (List.range cols).map fun c => labelAt im cell_w r c

/-- The cell-filling loop: draw each cell's rectangle
`[left, top, left + cell_w - 1, top + cell_w - 1]` in the given color,
row-major. -/
def foldDraw (cw : ℕ) (colorFn : ℕ → ℕ → RGB) (im : Img) (l : List (ℕ × ℕ)) : Img :=
  l.foldl (fun acc rc =>
    acc.drawRect (rc.2 * cw) (rc.1 * cw) (rc.2 * cw + cw - 1) (rc.1 * cw + cw - 1)
      (colorFn rc.1 rc.2)) im

/-- The solution page: a white page with every cell filled with its palette
color. -/
def solutionImage (im : Img) (cell_w cols rows : ℕ) : Img :=
  foldDraw cell_w (fun r c => paletteColor (labelAt im cell_w r c))
    (Img.new PAGE_WIDTH PAGE_HEIGHT (255, 255, 255)) (cellList cols rows)

/-- One drawing command of the puzzle page. -/
inductive DrawCmd where
  | rectFill (x0 y0 x1 y1 : ℕ) (color : RGB)
  | rectOutline (x0 y0 x1 y1 : ℕ) (color : RGB) (width : ℕ)
  | text (x y : ℤ) (s : String) (color : RGB) (font : Font)
  deriving DecidableEq

/-- The puzzle page as its sequence of drawing commands: per cell, a white
fill, a black outline of width `OUTLINE_WIDTH`, and the label drawn at
`(int(left + (cell_w - tw) / 2), int(top + (cell_w - th) / 2))`. -/
def puzzleCommands (im : Img) (cell_w cols rows : ℕ) (font : Font) (ts : TextMeasure) :
    List DrawCmd :=
  (List.range rows).flatMap fun r =>
    (List.range cols).flatMap fun c =>
      let left := c * cell_w
      let top := r * cell_w
      let lbl := labelAt im cell_w r c
      let twh := ts font lbl
      [DrawCmd.rectFill left top (left + cell_w - 1) (top + cell_w - 1) (255, 255, 255),
       DrawCmd.rectOutline left top (left + cell_w - 1) (top + cell_w - 1) (0, 0, 0)
         OUTLINE_WIDTH,
       DrawCmd.text (intTrunc ((left : ℚ) + (((cell_w : ℚ) - (twh.1 : ℚ)) / 2)))
         (intTrunc ((top : ℚ) + (((cell_w : ℚ) - (twh.2 : ℚ)) / 2))) lbl NUMBER_FILL font]

/-- Observable steps of `generate_mosaic_pages`, in execution order. -/
inductive Ev where
  | normalize (srcW srcH : ℕ)
  | gridComputed (cellW cols rows : ℕ)
  | gridRejected
  | cellSampled (r c : ℕ)
  | solutionDrawn
  | puzzleDrawn
  deriving DecidableEq

/-- The pipeline output: label grid, solution page, puzzle page commands and
the font the puzzle was drawn with. -/
structure GenOut where
  label_grid : List (List String)
  solution : Img
  puzzle : List DrawCmd
  font : Font

/-- Function `generate_mosaic_pages(pil_img, grid_cols, use_truetype_font)`, with its
trace of observable steps.  Following the source order, the image is
normalized (`resize_and_crop_to_page`) FIRST, and only then is the grid
computed; a grid `ValueError` propagates out of the function at that point. -/
def generate_mosaic_pages (samp : Sampler) (env : FontEnv) (ts : TextMeasure)
    (pil_img : Img) (grid_cols : ℤ) (use_truetype_font : Bool) :
    List Ev × Except String GenOut :=
  let im := resize_and_crop_to_page samp pil_img
  match compute_cell_grid grid_cols with
  | .error e => ([Ev.normalize pil_img.w pil_img.h, Ev.gridRejected], .error e)
  | .ok (cwZ, colsZ, rowsZ) =>
    let cell_w := cwZ.toNat
    let cols := colsZ.toNat
    let rows := rowsZ.toNat
    let font_size := max 10 (intTrunc ((cell_w : ℚ) * NUMBER_FONT_SIZE_FACTOR)).toNat
    let font := resolve_font env use_truetype_font font_size
    ([Ev.normalize pil_img.w pil_img.h, Ev.gridComputed cell_w cols rows] ++
      ((cellList cols rows).map fun rc => Ev.cellSampled rc.1 rc.2) ++
      [Ev.solutionDrawn, Ev.puzzleDrawn],
     .ok ⟨labelGrid im cell_w cols rows, solutionImage im cell_w cols rows,
       puzzleCommands im cell_w cols rows font ts, font⟩)

/-- Whether the cell at `(r, c)` covers the pixel `(x, y)`. -/
def cellCover (cw : ℕ) (rc : ℕ × ℕ) (x y : ℕ) : Prop :=
  rc.2 * cw ≤ x ∧ x ≤ rc.2 * cw + cw - 1 ∧ rc.1 * cw ≤ y ∧ y ≤ rc.1 * cw + cw - 1

-- ---------- Theorems ----------

/-- The palette is non-empty, so `nearest_palette_label` always returns a key. -/
lemma nearest_palette_label_isSome (c : RGB) : (nearest_palette_label c).isSome := by
  have h : ∀ (l : List (String × RGB)) (p : String × ℤ),
      (l.foldl (nearStep c) (some p)).isSome := by
    intro l
    induction l with
    | nil => intro p; rfl
    | cons hd tl ih =>
      intro p
      obtain ⟨bk, bd⟩ := p
      simp only [List.foldl_cons, nearStep]
      by_cases hlt : sqDist hd.2 c < bd
      · simpa [hlt] using ih (hd.1, sqDist hd.2 c)
      · simpa [hlt] using ih (bk, bd)
  have hfold : PALETTE.foldl (nearStep c) none =
      (PALETTE.tail).foldl (nearStep c) (some ("1", sqDist (0, 0, 0) c)) := rfl
  obtain ⟨p, hp⟩ := Option.isSome_iff_exists.mp (h PALETTE.tail ("1", sqDist (0, 0, 0) c))
  simp only [nearest_palette_label, hfold, hp]
  rfl

/-- Unfolding of the loop body on a non-`None` accumulator. -/
lemma nearStep_some (c : RGB) (bk : String) (bd : ℤ) (kv : String × RGB) :
    nearStep c (some (bk, bd)) kv =
      if sqDist kv.2 c < bd then some (kv.1, sqDist kv.2 c) else some (bk, bd) := rfl

/-- Invariant of the `nearest_palette_label` loop once a best entry exists:
the final best distance is at most the incoming one and at most every distance
in the remaining list, and the final best label is either the incoming one
(kept on ties) or a later entry that strictly improved on everything before it. -/
lemma foldl_nearStep_some (c : RGB) (l : List (String × RGB)) :
    ∀ (bk : String) (bd : ℤ),
      ∃ ok od, l.foldl (nearStep c) (some (bk, bd)) = some (ok, od) ∧
        od ≤ bd ∧ (∀ p ∈ l, od ≤ sqDist p.2 c) ∧
        ((ok = bk ∧ od = bd) ∨
          ∃ l₁ v l₂, l = l₁ ++ (ok, v) :: l₂ ∧ od = sqDist v c ∧ od < bd ∧
            ∀ p ∈ l₁, od < sqDist p.2 c) := by
  induction l with
  | nil =>
    intro bk bd
    exact ⟨bk, bd, rfl, le_rfl, by simp, Or.inl ⟨rfl, rfl⟩⟩
  | cons kv tl ih =>
    intro bk bd
    by_cases hlt : sqDist kv.2 c < bd
    · obtain ⟨ok, od, heq, hle, hall, hcase⟩ := ih kv.1 (sqDist kv.2 c)
      refine ⟨ok, od, ?_, le_of_lt (lt_of_le_of_lt hle hlt), ?_, ?_⟩
      · rw [List.foldl_cons, nearStep_some, if_pos hlt]
        exact heq
      · intro p hp
        rcases List.mem_cons.1 hp with h | h
        · subst h; exact hle
        · exact hall p h
      · rcases hcase with ⟨hok, hod⟩ | ⟨l₁, w, l₂, hl, hod, hodlt, hstrict⟩
        · refine Or.inr ⟨[], kv.2, tl, ?_, ?_, ?_, ?_⟩
          · simp [hok]
          · exact hod
          · omega
          · intro p hp; simp at hp
        · refine Or.inr ⟨kv :: l₁, w, l₂, ?_, hod, ?_, ?_⟩
          · simp [hl]
          · omega
          · intro p hp
            rcases List.mem_cons.1 hp with h | h
            · subst h; exact hodlt
            · exact hstrict p h
    · obtain ⟨ok, od, heq, hle, hall, hcase⟩ := ih bk bd
      refine ⟨ok, od, ?_, hle, ?_, ?_⟩
      · rw [List.foldl_cons, nearStep_some, if_neg hlt]
        exact heq
      · intro p hp
        rcases List.mem_cons.1 hp with h | h
        · subst h; omega
        · exact hall p h
      · rcases hcase with ⟨hok, hod⟩ | ⟨l₁, w, l₂, hl, hod, hodlt, hstrict⟩
        · exact Or.inl ⟨hok, hod⟩
        · refine Or.inr ⟨kv :: l₁, w, l₂, ?_, hod, hodlt, ?_⟩
          · simp [hl]
          · intro p hp
            rcases List.mem_cons.1 hp with h | h
            · subst h; omega
            · exact hstrict p h

/-- The full-loop specification, for a palette written as a head plus a tail:
the returned label heads an entry whose distance is a minimum over the whole
list, and every earlier entry has strictly larger distance. -/
lemma nearestLabel_spec (c : RGB) (k0 : String) (v0 : RGB) (l : List (String × RGB)) :
    ∃ l₁ v l₂ k,
      ((((k0, v0) :: l).foldl (nearStep c) none).map Prod.fst) = some k ∧
      (k0, v0) :: l = l₁ ++ (k, v) :: l₂ ∧
      (∀ p ∈ (k0, v0) :: l, sqDist v c ≤ sqDist p.2 c) ∧
      (∀ p ∈ l₁, sqDist v c < sqDist p.2 c) := by
  obtain ⟨ok, od, heq, hle, hall, hcase⟩ := foldl_nearStep_some c l k0 (sqDist v0 c)
  have hfold : ((k0, v0) :: l).foldl (nearStep c) none =
      l.foldl (nearStep c) (some (k0, sqDist v0 c)) := by
    simp [nearStep]
  rcases hcase with ⟨hok, hod⟩ | ⟨l₁, w, l₂, hl, hod, hodlt, hstrict⟩
  · refine ⟨[], v0, l, k0, ?_, by simp, ?_, by simp⟩
    · rw [hfold, heq, hok]
      rfl
    · intro p hp
      rcases List.mem_cons.1 hp with h | h
      · subst h; exact le_rfl
      · have h1 := hall p h
        omega
  · refine ⟨(k0, v0) :: l₁, w, l₂, ok, ?_, by simp [hl], ?_, ?_⟩
    · rw [hfold, heq]
      rfl
    · intro p hp
      rw [← hod]
      rcases List.mem_cons.1 hp with h | h
      · subst h
        show od ≤ sqDist v0 c
        omega
      · have h1 := hall p h
        omega
    · intro p hp
      rw [← hod]
      rcases List.mem_cons.1 hp with h | h
      · subst h
        show od < sqDist v0 c
        omega
      · exact hstrict p h

/-- C3: for every RGB triple with channels in 0..255, `nearest_palette_label`
returns the key of a palette entry whose squared Euclidean distance to the
input is minimal over the whole palette, and every entry strictly earlier in
palette iteration (insertion) order has strictly larger distance — i.e. the
first minimal entry wins, deterministically. -/
theorem nearest_palette_label_first_min (r g b : ℕ)
    (_hr : r ≤ 255) (_hg : g ≤ 255) (_hb : b ≤ 255) :
    ∃ l₁ v l₂ k, nearest_palette_label (r, g, b) = some k ∧
      PALETTE = l₁ ++ (k, v) :: l₂ ∧
      (∀ p ∈ PALETTE, sqDist v (r, g, b) ≤ sqDist p.2 (r, g, b)) ∧
      (∀ p ∈ l₁, sqDist v (r, g, b) < sqDist p.2 (r, g, b)) := by
  have hP : PALETTE = ("1", ((0 : ℕ), (0 : ℕ), (0 : ℕ))) :: PALETTE.tail := rfl
  obtain ⟨l₁, v, l₂, k, h1, h2, h3, h4⟩ :=
    nearestLabel_spec (r, g, b) "1" (0, 0, 0) PALETTE.tail
  refine ⟨l₁, v, l₂, k, ?_, ?_, ?_, h4⟩
  · exact h1
  · rw [hP]; exact h2
  · rw [hP]; exact h3

/-- C3 witness: the theorem applied at the concrete triple (10, 20, 30). -/
theorem nearest_palette_label_first_min_witness :
    (10 ≤ 255 ∧ 20 ≤ 255 ∧ 30 ≤ 255) ∧
    (∃ l₁ v l₂ k, nearest_palette_label (10, 20, 30) = some k ∧
      PALETTE = l₁ ++ (k, v) :: l₂ ∧
      (∀ p ∈ PALETTE, sqDist v (10, 20, 30) ≤ sqDist p.2 (10, 20, 30)) ∧
      (∀ p ∈ l₁, sqDist v (10, 20, 30) < sqDist p.2 (10, 20, 30))) :=
  ⟨⟨by omega, by omega, by omega⟩,
    nearest_palette_label_first_min 10 20 30 (by omega) (by omega) (by omega)⟩

/-- C4: nearest-fixed-palette matching is idempotent — every palette entry's
own color maps back to its own key. -/
theorem nearest_palette_label_idempotent :
    ∀ p ∈ PALETTE, nearest_palette_label p.2 = some p.1 := by decide

/-- C4 witness: the entry `("A", (255, 0, 0))` of the palette maps back to `"A"`. -/
theorem nearest_palette_label_idempotent_witness :
    ("A", ((255 : ℕ), (0 : ℕ), (0 : ℕ))) ∈ PALETTE ∧
    nearest_palette_label (255, 0, 0) = some "A" :=
  ⟨by decide, nearest_palette_label_idempotent ("A", (255, 0, 0)) (by decide)⟩

/-- C10: the fixed palette has exactly 28 entries, its keys are
`"1"`-`"9"` then `"A"`-`"S"` in order, the keys are unique and the 28 RGB
values are pairwise distinct.  (The palette is a constant of the embedding —
no operation of the program rebinds or mutates it — even though the module
docstring calls it a 26-color palette.) -/
theorem palette_shape :
    PALETTE.length = 28 ∧
    PALETTE.map Prod.fst =
      ["1", "2", "3", "4", "5", "6", "7", "8", "9", "A", "B", "C", "D", "E",
       "F", "G", "H", "I", "J", "K", "L", "M", "N", "O", "P", "Q", "R", "S"] ∧
    (PALETTE.map Prod.fst).Nodup ∧
    (PALETTE.map Prod.snd).Nodup := by decide

/-- C1: for every requested column count `cols ≥ 1`, a successful
`compute_cell_grid cols = ok (cw, c, r)` satisfies
`cw = ⌊2550 / cols⌋ ≥ 1`, `c = cols`, `r = ⌊3300 / cw⌋ ≥ 1`,
`cw * cols ≤ 2550` and `cw * r ≤ 3300`; and whenever the computed cell size
or row count would be below 1 the call is rejected with a raised error. -/
theorem compute_cell_grid_spec (cols : ℤ) (hcols : 1 ≤ cols) :
    (∀ cw c r, compute_cell_grid cols = .ok (cw, c, r) →
        cw = Int.fdiv (PAGE_WIDTH : ℤ) cols ∧ 1 ≤ cw ∧ c = cols ∧
        r = Int.fdiv (PAGE_HEIGHT : ℤ) cw ∧ 1 ≤ r ∧
        cw * cols ≤ (PAGE_WIDTH : ℤ) ∧ cw * r ≤ (PAGE_HEIGHT : ℤ)) ∧
    ((Int.fdiv (PAGE_WIDTH : ℤ) cols < 1 ∨
        Int.fdiv (PAGE_HEIGHT : ℤ) (Int.fdiv (PAGE_WIDTH : ℤ) cols) < 1) →
      ∃ e, compute_cell_grid cols = .error e) := by
  have hc0 : (0 : ℤ) < cols := by omega
  have hfd : Int.fdiv (PAGE_WIDTH : ℤ) cols = (PAGE_WIDTH : ℤ) / cols :=
    Int.fdiv_eq_ediv _ (by omega)
  constructor
  · intro cw c r hok
    simp only [compute_cell_grid] at hok
    rw [if_neg (by omega)] at hok
    by_cases hd : Int.fdiv (PAGE_WIDTH : ℤ) cols < 1
    · rw [if_pos hd] at hok
      exact absurd hok (by simp)
    · rw [if_neg hd] at hok
      by_cases hrw : Int.fdiv (PAGE_HEIGHT : ℤ) (Int.fdiv (PAGE_WIDTH : ℤ) cols) < 1
      · rw [if_pos hrw] at hok
        exact absurd hok (by simp)
      · rw [if_neg hrw] at hok
        simp only [Except.ok.injEq, Prod.mk.injEq] at hok
        obtain ⟨h1, h2, h3⟩ := hok
        subst h1; subst h2; subst h3
        refine ⟨rfl, by omega, rfl, rfl, by omega, ?_, ?_⟩
        · rw [hfd]
          exact Int.ediv_mul_le _ (by omega)
        · have hd0 : (0 : ℤ) ≤ Int.fdiv (PAGE_WIDTH : ℤ) cols := by omega
          have hfr : Int.fdiv (PAGE_HEIGHT : ℤ) (Int.fdiv (PAGE_WIDTH : ℤ) cols) =
              (PAGE_HEIGHT : ℤ) / (Int.fdiv (PAGE_WIDTH : ℤ) cols) :=
            Int.fdiv_eq_ediv _ hd0
          rw [hfr, mul_comm]
          exact Int.ediv_mul_le _ (by omega)
  · intro hbad
    simp only [compute_cell_grid]
    rw [if_neg (by omega)]
    by_cases hd : Int.fdiv (PAGE_WIDTH : ℤ) cols < 1
    · rw [if_pos hd]
      exact ⟨_, rfl⟩
    · rw [if_neg hd]
      have hrw : Int.fdiv (PAGE_HEIGHT : ℤ) (Int.fdiv (PAGE_WIDTH : ℤ) cols) < 1 := by
        rcases hbad with h | h
        · omega
        · exact h
      rw [if_pos hrw]
      exact ⟨_, rfl⟩

/-- C1 witness: the theorem applied at the concrete column count 60
(`compute_cell_grid 60 = ok (42, 60, 78)`). -/
theorem compute_cell_grid_spec_witness :
    (1 : ℤ) ≤ 60 ∧
    ((∀ cw c r, compute_cell_grid 60 = .ok (cw, c, r) →
        cw = Int.fdiv (PAGE_WIDTH : ℤ) 60 ∧ 1 ≤ cw ∧ c = 60 ∧
        r = Int.fdiv (PAGE_HEIGHT : ℤ) cw ∧ 1 ≤ r ∧
        cw * 60 ≤ (PAGE_WIDTH : ℤ) ∧ cw * r ≤ (PAGE_HEIGHT : ℤ)) ∧
      ((Int.fdiv (PAGE_WIDTH : ℤ) 60 < 1 ∨
          Int.fdiv (PAGE_HEIGHT : ℤ) (Int.fdiv (PAGE_WIDTH : ℤ) 60) < 1) →
        ∃ e, compute_cell_grid 60 = .error e)) :=
  ⟨by omega, compute_cell_grid_spec 60 (by omega)⟩

/-- C9: the rows-degenerate branch of `compute_cell_grid` is unreachable —
whenever `grid_cols ≥ 1` and the computed cell width is at least 1, the
computed row count is also at least 1 and the call returns `ok` (no
`ValueError` is raised at all, in particular not the third one). -/
theorem compute_cell_grid_rows_branch_unreachable (cols : ℤ) (h1 : 1 ≤ cols)
    (h2 : 1 ≤ Int.fdiv (PAGE_WIDTH : ℤ) cols) :
    1 ≤ Int.fdiv (PAGE_HEIGHT : ℤ) (Int.fdiv (PAGE_WIDTH : ℤ) cols) ∧
    compute_cell_grid cols =
      .ok (Int.fdiv (PAGE_WIDTH : ℤ) cols, cols,
        Int.fdiv (PAGE_HEIGHT : ℤ) (Int.fdiv (PAGE_WIDTH : ℤ) cols)) := by
  have hfd : Int.fdiv (PAGE_WIDTH : ℤ) cols = (PAGE_WIDTH : ℤ) / cols :=
    Int.fdiv_eq_ediv _ (by omega)
  have hle : Int.fdiv (PAGE_WIDTH : ℤ) cols ≤ (PAGE_WIDTH : ℤ) := by
    rw [hfd]
    exact Int.ediv_le_self _ (by norm_num [PAGE_WIDTH])
  have hrows : 1 ≤ Int.fdiv (PAGE_HEIGHT : ℤ) (Int.fdiv (PAGE_WIDTH : ℤ) cols) := by
    have hfr : Int.fdiv (PAGE_HEIGHT : ℤ) (Int.fdiv (PAGE_WIDTH : ℤ) cols) =
        (PAGE_HEIGHT : ℤ) / (Int.fdiv (PAGE_WIDTH : ℤ) cols) :=
      Int.fdiv_eq_ediv _ (by omega)
    rw [hfr, Int.le_ediv_iff_mul_le (by omega)]
    have : (PAGE_WIDTH : ℤ) < (PAGE_HEIGHT : ℤ) := by norm_num [PAGE_WIDTH, PAGE_HEIGHT]
    omega
  refine ⟨hrows, ?_⟩
  simp only [compute_cell_grid]
  rw [if_neg (by omega), if_neg (by omega), if_neg (by omega)]

/-- C9 witness: the theorem applied at the concrete column count 60. -/
theorem compute_cell_grid_rows_branch_unreachable_witness :
    ((1 : ℤ) ≤ 60 ∧ 1 ≤ Int.fdiv (PAGE_WIDTH : ℤ) 60) ∧
    (1 ≤ Int.fdiv (PAGE_HEIGHT : ℤ) (Int.fdiv (PAGE_WIDTH : ℤ) 60) ∧
      compute_cell_grid 60 =
        .ok (Int.fdiv (PAGE_WIDTH : ℤ) 60, 60,
          Int.fdiv (PAGE_HEIGHT : ℤ) (Int.fdiv (PAGE_WIDTH : ℤ) 60))) :=
  ⟨⟨by omega, by decide⟩,
    compute_cell_grid_rows_branch_unreachable 60 (by omega) (by decide)⟩

/-- Rounding half to even never drops below the floor. -/
lemma roundHalfEven_ge_floor (q : ℚ) : ⌊q⌋ ≤ roundHalfEven q := by
  unfold roundHalfEven
  split
  · exact le_rfl
  · split
    · omega
    · split
      · exact le_rfl
      · omega

/-- The scaled width covers the page width (and similarly for the height):
`src_w * scale ≥ src_w * (PAGE_WIDTH / src_w) = PAGE_WIDTH`. -/
lemma coverSize_ge (srcW srcH : ℕ) (hw : 1 ≤ srcW) (hh : 1 ≤ srcH) :
    PAGE_WIDTH ≤ (coverSize srcW srcH).1 ∧ PAGE_HEIGHT ≤ (coverSize srcW srcH).2 := by
  have hw0 : (0 : ℚ) < (srcW : ℚ) := by exact_mod_cast hw
  have hh0 : (0 : ℚ) < (srcH : ℚ) := by exact_mod_cast hh
  have hsw : (PAGE_WIDTH : ℚ) ≤ (srcW : ℚ) * coverScale srcW srcH := by
    have h1 : (PAGE_WIDTH : ℚ) / srcW ≤ coverScale srcW srcH := le_max_left _ _
    calc (PAGE_WIDTH : ℚ) = (srcW : ℚ) * ((PAGE_WIDTH : ℚ) / srcW) := by
          field_simp
      _ ≤ (srcW : ℚ) * coverScale srcW srcH := by
          exact mul_le_mul_of_nonneg_left h1 (le_of_lt hw0)
  have hsh : (PAGE_HEIGHT : ℚ) ≤ (srcH : ℚ) * coverScale srcW srcH := by
    have h1 : (PAGE_HEIGHT : ℚ) / srcH ≤ coverScale srcW srcH := le_max_right _ _
    calc (PAGE_HEIGHT : ℚ) = (srcH : ℚ) * ((PAGE_HEIGHT : ℚ) / srcH) := by
          field_simp
      _ ≤ (srcH : ℚ) * coverScale srcW srcH := by
          exact mul_le_mul_of_nonneg_left h1 (le_of_lt hh0)
  constructor
  · have hfl : (PAGE_WIDTH : ℤ) ≤ ⌊(srcW : ℚ) * coverScale srcW srcH⌋ := by
      rw [Int.le_floor]
      exact_mod_cast hsw
    have hr := roundHalfEven_ge_floor ((srcW : ℚ) * coverScale srcW srcH)
    simp only [coverSize]
    omega
  · have hfl : (PAGE_HEIGHT : ℤ) ≤ ⌊(srcH : ℚ) * coverScale srcW srcH⌋ := by
      rw [Int.le_floor]
      exact_mod_cast hsh
    have hr := roundHalfEven_ge_floor ((srcH : ℚ) * coverScale srcW srcH)
    simp only [coverSize]
    omega

/-- C5: for every source image of size at least 1x1 and any resampling
filter, cover-fit normalization returns an image of exactly the target pixel
size 2550 x 3300, and the scaled intermediate image covers the whole page
(both scaled dimensions are at least the page's), so no ragged or smaller
output can occur. -/
theorem resize_and_crop_page_size (samp : Sampler) (im : Img)
    (hw : 1 ≤ im.w) (hh : 1 ≤ im.h) :
    (resize_and_crop_to_page samp im).w = 2550 ∧
    (resize_and_crop_to_page samp im).h = 3300 ∧
    2550 ≤ (coverSize im.w im.h).1 ∧ 3300 ≤ (coverSize im.w im.h).2 := by
  obtain ⟨h1, h2⟩ := coverSize_ge im.w im.h hw hh
  refine ⟨?_, ?_, h1, h2⟩
  · show ((Int.fdiv ((coverSize im.w im.h).1 - (PAGE_WIDTH : ℤ)) 2 + (PAGE_WIDTH : ℤ)) -
      Int.fdiv ((coverSize im.w im.h).1 - (PAGE_WIDTH : ℤ)) 2).toNat = 2550
    have : (PAGE_WIDTH : ℤ) = 2550 := rfl
    omega
  · show ((Int.fdiv ((coverSize im.w im.h).2 - (PAGE_HEIGHT : ℤ)) 2 + (PAGE_HEIGHT : ℤ)) -
      Int.fdiv ((coverSize im.w im.h).2 - (PAGE_HEIGHT : ℤ)) 2).toNat = 3300
    have : (PAGE_HEIGHT : ℤ) = 3300 := rfl
    omega

/-- C5 witness: the theorem applied to a 100 x 100 image and a concrete
(nearest-pixel) filter. -/
theorem resize_and_crop_page_size_witness :
    (1 ≤ (Img.mk 100 100 fun _ _ => (255, 0, 0)).w ∧
      1 ≤ (Img.mk 100 100 fun _ _ => (255, 0, 0)).h) ∧
    ((resize_and_crop_to_page (fun im _ _ x y => im.px x y)
        (Img.mk 100 100 fun _ _ => (255, 0, 0))).w = 2550 ∧
      (resize_and_crop_to_page (fun im _ _ x y => im.px x y)
        (Img.mk 100 100 fun _ _ => (255, 0, 0))).h = 3300 ∧
      2550 ≤ (coverSize (Img.mk 100 100 fun _ _ => (255, 0, 0)).w
        (Img.mk 100 100 fun _ _ => (255, 0, 0)).h).1 ∧
      3300 ≤ (coverSize (Img.mk 100 100 fun _ _ => (255, 0, 0)).w
        (Img.mk 100 100 fun _ _ => (255, 0, 0)).h).2) :=
  ⟨⟨by norm_num, by norm_num⟩,
    resize_and_crop_page_size (fun im _ _ x y => im.px x y)
      (Img.mk 100 100 fun _ _ => (255, 0, 0)) (by norm_num) (by norm_num)⟩

/-- C6: a cell rectangle whose intersection with the image array is empty
resolves to the defined fallback color black rather than an error. -/
theorem average_color_empty_fallback (im : Img) (left top w h : ℕ)
    (hempty : regionPixels im left top w h = []) :
    average_color_of_region im left top w h = (0, 0, 0) := by
  simp [average_color_of_region, hempty]

/-- C6 witness: a 4 x 4 image and a cell starting at column 10, fully outside
the array. -/
theorem average_color_empty_fallback_witness :
    regionPixels (Img.mk 4 4 fun _ _ => (7, 7, 7)) 10 0 5 5 = [] ∧
    average_color_of_region (Img.mk 4 4 fun _ _ => (7, 7, 7)) 10 0 5 5 = (0, 0, 0) :=
  ⟨by simp [regionPixels], average_color_empty_fallback _ 10 0 5 5 (by simp [regionPixels])⟩

/-- Requesting 3000 columns exceeds the page width in pixels, so the grid is
rejected at the second guard. -/
lemma compute_cell_grid_3000 :
    compute_cell_grid 3000 = .error "grid_cols too large for page width" := by
  unfold compute_cell_grid
  norm_num
  intro hcontra
  exact absurd hcontra (by decide)

/-- C2 counterexample: with a 1 x 1 input and 3000 requested columns (more
columns than page-width pixels) the call does raise the grid error, but the
resize/crop of the input image has already run: the normalization step is in
the trace even though grid validation never succeeded.  So validation does
NOT precede image processing. -/
theorem generate_counterexample_resize_precedes_validation :
    (generate_mosaic_pages (fun im _ _ x y => im.px x y)
        ⟨fun _ => false, fun _ => false, false⟩ (fun _ _ => (1, 1))
        (Img.mk 1 1 fun _ _ => (0, 0, 0)) 3000 true).2 =
      .error "grid_cols too large for page width" ∧
    Ev.normalize 1 1 ∈
      (generate_mosaic_pages (fun im _ _ x y => im.px x y)
        ⟨fun _ => false, fun _ => false, false⟩ (fun _ _ => (1, 1))
        (Img.mk 1 1 fun _ _ => (0, 0, 0)) 3000 true).1 := by
  have h := compute_cell_grid_3000
  constructor
  · show (generate_mosaic_pages _ _ _ _ 3000 true).2 = _
    unfold generate_mosaic_pages
    rw [h]
  · show Ev.normalize 1 1 ∈ (generate_mosaic_pages _ _ _ _ 3000 true).1
    unfold generate_mosaic_pages
    rw [h]
    simp

/-- C2 (amended): when the requested column count yields a degenerate grid,
`generate_mosaic_pages` raises the error after the single image normalization
but before any per-cell work: the trace is exactly normalization followed by
rejection — no cell is sampled and neither page is drawn. -/
theorem generate_grid_error_before_cell_work (samp : Sampler) (env : FontEnv)
    (ts : TextMeasure) (img : Img) (cols : ℤ) (use_tt : Bool) (e : String)
    (herr : compute_cell_grid cols = .error e) :
    generate_mosaic_pages samp env ts img cols use_tt =
      ([Ev.normalize img.w img.h, Ev.gridRejected], .error e) := by
  unfold generate_mosaic_pages
  rw [herr]

/-- C2 (amended) witness: the amended theorem at the concrete degenerate
input `grid_cols = 3000`. -/
theorem generate_grid_error_before_cell_work_witness :
    compute_cell_grid 3000 = .error "grid_cols too large for page width" ∧
    generate_mosaic_pages (fun im _ _ x y => im.px x y)
        ⟨fun _ => true, fun _ => true, true⟩ (fun _ _ => (1, 1))
        (Img.mk 7 9 fun _ _ => (1, 2, 3)) 3000 false =
      ([Ev.normalize 7 9, Ev.gridRejected],
        .error "grid_cols too large for page width") :=
  ⟨compute_cell_grid_3000,
    generate_grid_error_before_cell_work _ _ _ _ 3000 false _ compute_cell_grid_3000⟩

/-- A column count between 1 and the page width always yields a valid grid. -/
lemma compute_cell_grid_ok (cols : ℤ) (h1 : 1 ≤ cols) (h2 : cols ≤ (PAGE_WIDTH : ℤ)) :
    compute_cell_grid cols =
      .ok (Int.fdiv (PAGE_WIDTH : ℤ) cols, cols,
        Int.fdiv (PAGE_HEIGHT : ℤ) (Int.fdiv (PAGE_WIDTH : ℤ) cols)) := by
  have hcw : 1 ≤ Int.fdiv (PAGE_WIDTH : ℤ) cols := by
    rw [Int.fdiv_eq_ediv _ (by omega), Int.le_ediv_iff_mul_le (by omega)]
    omega
  have hcwle : Int.fdiv (PAGE_WIDTH : ℤ) cols ≤ (PAGE_WIDTH : ℤ) := by
    rw [Int.fdiv_eq_ediv _ (by omega)]
    exact Int.ediv_le_self _ (by norm_num [PAGE_WIDTH])
  have hrows : 1 ≤ Int.fdiv (PAGE_HEIGHT : ℤ) (Int.fdiv (PAGE_WIDTH : ℤ) cols) := by
    rw [Int.fdiv_eq_ediv _ (by omega), Int.le_ediv_iff_mul_le (by omega)]
    have hWH : (PAGE_WIDTH : ℤ) ≤ (PAGE_HEIGHT : ℤ) := by
      norm_num [PAGE_WIDTH, PAGE_HEIGHT]
    omega
  simp only [compute_cell_grid]
  rw [if_neg (by omega), if_neg (by omega), if_neg (by omega)]

/-- C8: font resolution never fails the generation.  Whatever the state of
the candidate font list, the fallback chain ends in a definite font — the
first candidate path that exists and loads, else the generic name if it
loads, else the built-in default bitmap font — and for any valid column
count the pipeline returns its pages rather than raising, with exactly that
font. -/
theorem font_resolution_total (env : FontEnv) (sz : ℕ) (samp : Sampler)
    (ts : TextMeasure) (img : Img) (cols : ℤ) (use_tt : Bool)
    (h1 : 1 ≤ cols) (h2 : cols ≤ (PAGE_WIDTH : ℤ)) :
    (match possible_fonts.find? (fun p => env.pathExists p && env.loadOk p) with
      | some p => resolve_font env true sz = Font.truetype p sz
      | none => resolve_font env true sz =
          if env.genericOk then Font.truetype "DejaVuSans-Bold.ttf" sz
          else Font.builtin) ∧
    (∃ g, (generate_mosaic_pages samp env ts img cols use_tt).2 = .ok g ∧
      g.font = resolve_font env use_tt
        (max 10 (intTrunc (((Int.fdiv (PAGE_WIDTH : ℤ) cols).toNat : ℚ) *
          NUMBER_FONT_SIZE_FACTOR)).toNat)) := by
  constructor
  · cases hfind : possible_fonts.find? (fun p => env.pathExists p && env.loadOk p) with
    | some p => simp [resolve_font, hfind]
    | none =>
      by_cases hg : env.genericOk
      · simp [resolve_font, hfind, hg]
      · simp [resolve_font, hfind, hg]
  · have hok := compute_cell_grid_ok cols h1 h2
    unfold generate_mosaic_pages
    rw [hok]
    exact ⟨_, rfl, rfl⟩

/-- C8 witness: the theorem at a concrete environment in which no candidate
loads, a blank metrics oracle, a 1 x 1 image and 60 columns. -/
theorem font_resolution_total_witness :
    ((1 : ℤ) ≤ 60 ∧ (60 : ℤ) ≤ (PAGE_WIDTH : ℤ)) ∧
    ((match possible_fonts.find?
        (fun p => FontEnv.pathExists ⟨fun _ => false, fun _ => false, false⟩ p &&
          FontEnv.loadOk ⟨fun _ => false, fun _ => false, false⟩ p) with
      | some p =>
          resolve_font ⟨fun _ => false, fun _ => false, false⟩ true 7 = Font.truetype p 7
      | none => resolve_font ⟨fun _ => false, fun _ => false, false⟩ true 7 =
          if FontEnv.genericOk ⟨fun _ => false, fun _ => false, false⟩ then
            Font.truetype "DejaVuSans-Bold.ttf" 7
          else Font.builtin) ∧
      (∃ g, (generate_mosaic_pages (fun im _ _ x y => im.px x y)
          ⟨fun _ => false, fun _ => false, false⟩ (fun _ _ => (1, 1))
          (Img.mk 1 1 fun _ _ => (9, 9, 9)) 60 true).2 = .ok g ∧
        g.font = resolve_font ⟨fun _ => false, fun _ => false, false⟩ true
          (max 10 (intTrunc (((Int.fdiv (PAGE_WIDTH : ℤ) 60).toNat : ℚ) *
            NUMBER_FONT_SIZE_FACTOR)).toNat))) :=
  ⟨⟨by omega, by norm_num [PAGE_WIDTH]⟩,
    font_resolution_total ⟨fun _ => false, fun _ => false, false⟩ 7
      (fun im _ _ x y => im.px x y) (fun _ _ => (1, 1))
      (Img.mk 1 1 fun _ _ => (9, 9, 9)) 60 true (by omega)
      (by norm_num [PAGE_WIDTH])⟩

/-- A crop pixel inside the source image is the corresponding source pixel. -/
lemma Img.crop_px (im : Img) (l t r b : ℤ) (x y : ℕ)
    (h1 : 0 ≤ l + x) (h2 : l + x < im.w) (h3 : 0 ≤ t + y) (h4 : t + y < im.h) :
    (im.crop l t r b).px x y = im.px (l + x).toNat (t + y).toNat := by
  simp only [Img.crop]
  rw [if_pos ⟨h1, h2, h3, h4⟩]

/-- Cover-fitting a constant image yields the constant on every page pixel,
for any filter that preserves constant images (as every normalized
resampling filter, in particular Lanczos, does). -/
lemma resize_and_crop_px_const (samp : Sampler)
    (hconst : ∀ (im : Img) (nw nh : ℕ) (c : RGB), (∀ x y, im.px x y = c) →
      ∀ x y, samp im nw nh x y = c)
    (im : Img) (c : RGB) (hpx : ∀ x y, im.px x y = c) (x y : ℕ)
    (h1 : 0 ≤ Int.fdiv (((coverSize im.w im.h).1 : ℤ) - (PAGE_WIDTH : ℤ)) 2 + x)
    (h2 : Int.fdiv (((coverSize im.w im.h).1 : ℤ) - (PAGE_WIDTH : ℤ)) 2 + x <
      ((coverSize im.w im.h).1 : ℤ))
    (h3 : 0 ≤ Int.fdiv (((coverSize im.w im.h).2 : ℤ) - (PAGE_HEIGHT : ℤ)) 2 + y)
    (h4 : Int.fdiv (((coverSize im.w im.h).2 : ℤ) - (PAGE_HEIGHT : ℤ)) 2 + y <
      ((coverSize im.w im.h).2 : ℤ)) :
    (resize_and_crop_to_page samp im).px x y = c := by
  simp only [resize_and_crop_to_page]
  rw [Img.crop_px _ _ _ _ _ _ _ h1 (by simpa [Img.resize] using h2) h3
    (by simpa [Img.resize] using h4)]
  simp only [Img.resize]
  exact hconst im _ _ c hpx _ _

/-- A 100 x 100 source scales by 33 to 3300 x 3300. -/
lemma coverSize_100 : coverSize 100 100 = (3300, 3300) := by
  have hscale : coverScale 100 100 = 33 := by
    unfold coverScale
    norm_num [PAGE_WIDTH, PAGE_HEIGHT]
  unfold coverSize
  rw [hscale]
  norm_num [roundHalfEven]
  decide

/-- Every page pixel of the normalized 100 x 100 solid red input is red. -/
lemma normalized_red_px (samp : Sampler)
    (hconst : ∀ (im : Img) (nw nh : ℕ) (c : RGB), (∀ x y, im.px x y = c) →
      ∀ x y, samp im nw nh x y = c) (x y : ℕ) (hx : x < 2550) (hy : y < 3300) :
    (resize_and_crop_to_page samp (Img.mk 100 100 fun _ _ => (255, 0, 0))).px x y
      = (255, 0, 0) := by
  have hcs : coverSize (Img.mk 100 100 fun _ _ => (255, 0, 0)).w
      (Img.mk 100 100 fun _ _ => (255, 0, 0)).h = (3300, 3300) := coverSize_100
  refine resize_and_crop_px_const samp hconst _ (255, 0, 0) (fun _ _ => rfl) x y ?_ ?_ ?_ ?_ <;>
    rw [hcs]
  · have h : Int.fdiv (((3300 : ℕ) : ℤ) - (PAGE_WIDTH : ℤ)) 2 = 375 := by decide
    rw [h]
    omega
  · have h : Int.fdiv (((3300 : ℕ) : ℤ) - (PAGE_WIDTH : ℤ)) 2 = 375 := by decide
    rw [h]
    omega
  · have h : Int.fdiv (((3300 : ℕ) : ℤ) - (PAGE_HEIGHT : ℤ)) 2 = 0 := by decide
    rw [h]
    omega
  · have h : Int.fdiv (((3300 : ℕ) : ℤ) - (PAGE_HEIGHT : ℤ)) 2 = 0 := by decide
    rw [h]
    omega

/-- A region fully inside a constant image consists of that constant. -/
lemma regionPixels_eq_replicate (im : Img) (c : RGB) (left top w h : ℕ)
    (hpx : ∀ x y, x < im.w → y < im.h → im.px x y = c)
    (hl : left + w ≤ im.w) (ht : top + h ≤ im.h) :
    regionPixels im left top w h =
      List.replicate (regionPixels im left top w h).length c := by
  rw [List.eq_replicate_iff]
  refine ⟨rfl, ?_⟩
  intro b hb
  simp only [regionPixels, List.mem_flatMap, List.mem_map, List.mem_range'_1] at hb
  obtain ⟨y, ⟨hy1, hy2⟩, x, ⟨hx1, hx2⟩, hbx⟩ := hb
  rw [← hbx]
  exact hpx x y (by omega) (by omega)

/-- A positive-size region starting inside the image is non-empty. -/
lemma regionPixels_ne_nil (im : Img) (left top w h : ℕ)
    (hl : left + w ≤ im.w) (ht : top + h ≤ im.h) (hw : 1 ≤ w) (hh : 1 ≤ h) :
    regionPixels im left top w h ≠ [] := by
  have hmem : im.px left top ∈ regionPixels im left top w h := by
    simp only [regionPixels, List.mem_flatMap, List.mem_map, List.mem_range'_1]
    exact ⟨top, ⟨le_rfl, by omega⟩, left, ⟨le_rfl, by omega⟩, rfl⟩
  exact List.ne_nil_of_mem hmem

/-- Averaging a region of a constant image returns the constant. -/
lemma average_color_const (im : Img) (c1 c2 c3 : ℕ) (left top w h : ℕ)
    (hpx : ∀ x y, x < im.w → y < im.h → im.px x y = (c1, c2, c3))
    (hl : left + w ≤ im.w) (ht : top + h ≤ im.h) (hw : 1 ≤ w) (hh : 1 ≤ h) :
    average_color_of_region im left top w h = (c1, c2, c3) := by
  have hne := regionPixels_ne_nil im left top w h hl ht hw hh
  have hrep := regionPixels_eq_replicate im (c1, c2, c3) left top w h hpx hl ht
  have hn0 : ((regionPixels im left top w h).length : ℚ) ≠ 0 := by
    simp only [ne_eq, Nat.cast_eq_zero, List.length_eq_zero]
    exact hne
  have hch : ∀ (f : RGB → ℕ),
      ((regionPixels im left top w h).map fun p => ((f p : ℕ) : ℚ)).sum =
        ((regionPixels im left top w h).length : ℚ) * ((f (c1, c2, c3) : ℕ) : ℚ) := by
    intro f
    conv_lhs => rw [hrep]
    rw [List.map_replicate, List.sum_replicate, nsmul_eq_mul]
  have hval : ∀ (f : RGB → ℕ),
      (⌊((regionPixels im left top w h).map fun p => ((f p : ℕ) : ℚ)).sum /
        ((regionPixels im left top w h).length : ℚ)⌋).toNat = f (c1, c2, c3) := by
    intro f
    rw [hch f, mul_div_cancel_left₀ _ hn0, Int.floor_natCast, Int.toNat_ofNat]
  unfold average_color_of_region
  rw [if_neg hne]
  exact Prod.ext (hval fun p => p.1) (Prod.ext (hval fun p => p.2.1) (hval fun p => p.2.2))

/-- The nearest palette key to pure red is `"A"`. -/
lemma nearest_red : nearest_palette_label (255, 0, 0) = some "A" := by decide

/-- Lookup `PALETTE["A"]` gives `(255, 0, 0)`. -/
lemma paletteColor_A : paletteColor "A" = (255, 0, 0) := by decide

/-- On the normalized red page, every cell of the 255-pixel grid is labelled
`"A"`. -/
lemma labelAt_red (im : Img) (r c : ℕ)
    (hpx : ∀ x y, x < im.w → y < im.h → im.px x y = (255, 0, 0))
    (hw : im.w = 2550) (hh : im.h = 3300) (hr : r < 12) (hc : c < 10) :
    labelAt im 255 r c = "A" := by
  have havg : average_color_of_region im (c * 255) (r * 255) 255 255 = (255, 0, 0) :=
    average_color_const im 255 0 0 _ _ _ _ hpx (by omega) (by omega)
      (by omega) (by omega)
  unfold labelAt
  rw [havg, nearest_red]
  rfl

/-- Membership in the row-major cell traversal. -/
lemma mem_cellList (cols rows r c : ℕ) :
    (r, c) ∈ cellList cols rows ↔ r < rows ∧ c < cols := by
  simp only [cellList, List.mem_flatMap, List.mem_map, List.mem_range, Prod.mk.injEq]
  constructor
  · rintro ⟨a, ha, b, hb, hra, hcb⟩
    omega
  · rintro ⟨hr, hc⟩
    exact ⟨r, hr, c, hc, rfl, rfl⟩

/-- Drawing cells none of which covers a pixel leaves the pixel unchanged. -/
lemma foldDraw_px_not_covered (cw : ℕ) (colorFn : ℕ → ℕ → RGB)
    (l : List (ℕ × ℕ)) (x y : ℕ) :
    ∀ (im : Img), (∀ rc ∈ l, ¬ cellCover cw rc x y) →
      (foldDraw cw colorFn im l).px x y = im.px x y := by
  induction l with
  | nil => intro im _; rfl
  | cons rc tl ih =>
    intro im hnone
    show (foldDraw cw colorFn _ tl).px x y = im.px x y
    rw [ih _ fun p hp => hnone p (List.mem_cons_of_mem rc hp)]
    simp only [Img.drawRect]
    rw [if_neg]
    intro hcov
    exact hnone rc (List.mem_cons_self rc tl)
      ⟨hcov.1, hcov.2.1, hcov.2.2.1, hcov.2.2.2⟩

/-- Drawing cells that all share one color paints every covered pixel with
that color. -/
lemma foldDraw_px_covered (cw : ℕ) (colorFn : ℕ → ℕ → RGB) (col : RGB)
    (l : List (ℕ × ℕ)) (x y : ℕ) :
    ∀ (im : Img), (∀ rc ∈ l, colorFn rc.1 rc.2 = col) →
      (∃ rc ∈ l, cellCover cw rc x y) →
      (foldDraw cw colorFn im l).px x y = col := by
  induction l with
  | nil =>
    intro im _ hsome
    obtain ⟨rc, hrc, _⟩ := hsome
    exact absurd hrc (List.not_mem_nil rc)
  | cons rc tl ih =>
    intro im hcol hsome
    by_cases hex : ∃ p ∈ tl, cellCover cw p x y
    · exact ih _ (fun p hp => hcol p (List.mem_cons_of_mem rc hp)) hex
    · have hhead : cellCover cw rc x y := by
        obtain ⟨p, hp, hcov⟩ := hsome
        rcases List.mem_cons.1 hp with hpe | hpt
        · rw [← hpe]; exact hcov
        · exact absurd ⟨p, hpt, hcov⟩ hex
      show (foldDraw cw colorFn _ tl).px x y = col
      rw [foldDraw_px_not_covered cw colorFn tl x y _
        (fun p hp hcov => hex ⟨p, hp, hcov⟩)]
      simp only [Img.drawRect]
      rw [if_pos ⟨hhead.1, hhead.2.1, hhead.2.2.1, hhead.2.2.2⟩]
      exact hcol rc (List.mem_cons_self rc tl)

/-- A map over `range` all of whose values agree is a `replicate`. -/
lemma range_map_const {α : Type} (n : ℕ) (f : ℕ → α) (a : α)
    (hf : ∀ i, i < n → f i = a) :
    (List.range n).map f = List.replicate n a := by
  rw [List.eq_replicate_iff]
  constructor
  · simp
  · intro b hb
    obtain ⟨i, hi, hfi⟩ := List.mem_map.1 hb
    rw [← hfi]
    exact hf i (List.mem_range.1 hi)

/-- If every cell gets the same label, the label grid is constant. -/
lemma labelGrid_const (im : Img) (cw cols rows : ℕ) (s : String)
    (hall : ∀ r c, r < rows → c < cols → labelAt im cw r c = s) :
    labelGrid im cw cols rows = List.replicate rows (List.replicate cols s) := by
  unfold labelGrid
  refine range_map_const rows _ _ ?_
  intro r hr
  exact range_map_const cols _ _ fun c hc => hall r c hr hc

/-- The crop box pins the normalized width at 2550 whatever the input. -/
lemma resize_and_crop_w (samp : Sampler) (im : Img) :
    (resize_and_crop_to_page samp im).w = 2550 := by
  simp only [resize_and_crop_to_page, Img.crop]
  have h : ((PAGE_WIDTH : ℕ) : ℤ) = 2550 := rfl
  omega

/-- The crop box pins the normalized height at 3300 whatever the input. -/
lemma resize_and_crop_h (samp : Sampler) (im : Img) :
    (resize_and_crop_to_page samp im).h = 3300 := by
  simp only [resize_and_crop_to_page, Img.crop]
  have h : ((PAGE_HEIGHT : ℕ) : ℤ) = 3300 := rfl
  omega

/-- Ten columns yield 255-pixel cells and 12 rows. -/
lemma compute_cell_grid_10 : compute_cell_grid 10 = .ok (255, 10, 12) := by
  have h := compute_cell_grid_ok 10 (by omega) (by norm_num [PAGE_WIDTH])
  rw [h]
  have h1 : Int.fdiv (PAGE_WIDTH : ℤ) 10 = 255 := by decide
  rw [h1]
  have h2 : Int.fdiv (PAGE_HEIGHT : ℤ) 255 = 12 := by decide
  rw [h2]

/-- C7: end-to-end, a 100 x 100 solid red input with 10 columns (under any
constant-preserving resampling filter) produces a 12 x 10 Label Grid of all
`"A"`, a solution page whose every cell pixel is `(255, 0, 0)`, and a puzzle
command list containing, for every cell, the label `"A"` drawn at the cell's
centering position. -/
theorem generate_red_end_to_end (samp : Sampler) (env : FontEnv) (ts : TextMeasure)
    (hconst : ∀ (im : Img) (nw nh : ℕ) (c : RGB), (∀ x y, im.px x y = c) →
      ∀ x y, samp im nw nh x y = c) :
    ∃ g, (generate_mosaic_pages samp env ts
        (Img.mk 100 100 fun _ _ => (255, 0, 0)) 10 true).2 = .ok g ∧
      g.label_grid = List.replicate 12 (List.replicate 10 "A") ∧
      (∀ r c x y, r < 12 → c < 10 →
        c * 255 ≤ x → x ≤ c * 255 + 254 → r * 255 ≤ y → y ≤ r * 255 + 254 →
        g.solution.px x y = (255, 0, 0)) ∧
      (∀ r c, r < 12 → c < 10 →
        DrawCmd.text
          (intTrunc (((c * 255 : ℕ) : ℚ) +
            ((((255 : ℕ) : ℚ)) - (((ts g.font "A").1 : ℕ) : ℚ)) / 2))
          (intTrunc (((r * 255 : ℕ) : ℚ) +
            ((((255 : ℕ) : ℚ)) - (((ts g.font "A").2 : ℕ) : ℚ)) / 2))
          "A" NUMBER_FILL g.font ∈ g.puzzle) := by
  have hw2 := resize_and_crop_w samp (Img.mk 100 100 fun _ _ => (255, 0, 0))
  have hh2 := resize_and_crop_h samp (Img.mk 100 100 fun _ _ => (255, 0, 0))
  set im2 := resize_and_crop_to_page samp (Img.mk 100 100 fun _ _ => (255, 0, 0))
    with him2
  have hpx2 : ∀ x y, x < im2.w → y < im2.h → im2.px x y = (255, 0, 0) := by
    intro x y hx hy
    rw [hw2] at hx
    rw [hh2] at hy
    exact normalized_red_px samp hconst x y hx hy
  have hlab : ∀ r c, r < 12 → c < 10 → labelAt im2 255 r c = "A" :=
    fun r c hr hc => labelAt_red im2 r c hpx2 hw2 hh2 hr hc
  unfold generate_mosaic_pages
  rw [compute_cell_grid_10, ← him2]
  dsimp only
  rw [show Int.toNat 255 = 255 from rfl, show Int.toNat 10 = 10 from rfl,
    show Int.toNat 12 = 12 from rfl]
  refine ⟨_, rfl, ?_, ?_, ?_⟩
  · dsimp only
    exact labelGrid_const im2 255 10 12 "A" hlab
  · dsimp only
    intro r c x y hr hc hx1 hx2 hy1 hy2
    unfold solutionImage
    refine foldDraw_px_covered 255 _ (255, 0, 0) (cellList 10 12) x y _ ?_ ?_
    · intro rc hrc
      have hb : rc.1 < 12 ∧ rc.2 < 10 :=
        (mem_cellList 10 12 rc.1 rc.2).1 (by simpa using hrc)
      rw [hlab rc.1 rc.2 hb.1 hb.2, paletteColor_A]
    · refine ⟨(r, c), (mem_cellList 10 12 r c).2 ⟨hr, hc⟩, ?_⟩
      unfold cellCover
      simp only
      omega
  · dsimp only
    intro r c hr hc
    unfold puzzleCommands
    refine List.mem_flatMap.2 ⟨r, List.mem_range.2 hr, ?_⟩
    refine List.mem_flatMap.2 ⟨c, List.mem_range.2 hc, ?_⟩
    dsimp only
    rw [hlab r c hr hc]
    exact List.mem_cons_of_mem _ (List.mem_cons_of_mem _ (List.mem_cons_self _ _))

/-- C7 witness: the end-to-end theorem at a concrete constant-preserving
filter (direct pixel sampling), an empty font environment and a constant
metrics oracle. -/
theorem generate_red_end_to_end_witness :
    (∀ (im : Img) (nw nh : ℕ) (c : RGB), (∀ x y, im.px x y = c) →
      ∀ x y, (fun (im : Img) (_ _ : ℕ) (x y : ℕ) => im.px x y) im nw nh x y = c) ∧
    (∃ g, (generate_mosaic_pages (fun im _ _ x y => im.px x y)
        ⟨fun _ => false, fun _ => false, false⟩ (fun _ _ => (100, 100))
        (Img.mk 100 100 fun _ _ => (255, 0, 0)) 10 true).2 = .ok g ∧
      g.label_grid = List.replicate 12 (List.replicate 10 "A") ∧
      (∀ r c x y, r < 12 → c < 10 →
        c * 255 ≤ x → x ≤ c * 255 + 254 → r * 255 ≤ y → y ≤ r * 255 + 254 →
        g.solution.px x y = (255, 0, 0)) ∧
      (∀ r c, r < 12 → c < 10 →
        DrawCmd.text
          (intTrunc (((c * 255 : ℕ) : ℚ) +
            ((((255 : ℕ) : ℚ)) - ((((fun _ _ => (100, 100)) :
              TextMeasure) g.font "A").1 : ℚ)) / 2))
          (intTrunc (((r * 255 : ℕ) : ℚ) +
            ((((255 : ℕ) : ℚ)) - ((((fun _ _ => (100, 100)) :
              TextMeasure) g.font "A").2 : ℚ)) / 2))
          "A" NUMBER_FILL g.font ∈ g.puzzle)) :=
  ⟨fun _ _ _ _ h x y => h x y,
    generate_red_end_to_end (fun im _ _ x y => im.px x y)
      ⟨fun _ => false, fun _ => false, false⟩ (fun _ _ => (100, 100))
      (fun _ _ _ _ h x y => h x y)⟩
